import Mathlib

/-!
Verification of the `gw` repository-watcher against its specification.

Shallow embedding of the parts of the program the claims are about:
* `Context` — the string→string map threaded through triggers, checks and actions;
* `shorthash` and the git repository engine (`check_if_updatable`, `find_tags`,
  `pull`, `check_inner`) from `src/checks/git/repository.rs` and `src/checks/git.rs`;
* the orchestrator receive loop from `src/start.rs`;
* the credential handler from `src/checks/git/credentials.rs`;
* the process reactor supervision loop and `stop` from `src/actions/process.rs`;
* the HTTP trigger request handler from `src/triggers/http.rs`.

Fallible Rust functions are embedded as `Except`-returning Lean functions; a Rust
panic (out-of-bounds slice) is embedded as an outer `Option` layer (`none` = panic).
Stateful code is embedded as explicit state passing.
-/

namespace Gw

/-- Modelled from the spec: the context module (`src/context.rs`) is not present
under `src/`; per §3 and §4.1 of the spec it is a mutable mapping from fixed
string keys to string values (`HashMap<&str, String>` at the use sites).
Embedded as an association list with overwriting insert. -/
def Context := List (String × String)

/-- Insert a key, overwriting any previous binding (HashMap::insert). -/
def Context.insert (ctx : Context) (k v : String) : Context :=
  (k, v) :: ctx.filter (fun p => p.1 ≠ k)

/-- Look a key up (HashMap::get). -/
def Context.get (ctx : Context) (k : String) : Option String :=
  (List.find? (fun p => p.1 = k) ctx).map Prod.snd

instance {ε α : Type} [DecidableEq ε] [DecidableEq α] : DecidableEq (Except ε α) :=
  fun a b =>
    match a, b with
    | .ok x, .ok y =>
      if h : x = y then .isTrue (h ▸ rfl) else .isFalse (fun hh => h (by cases hh; rfl))
    | .error x, .error y =>
      if h : x = y then .isTrue (h ▸ rfl) else .isFalse (fun hh => h (by cases hh; rfl))
    | .ok _, .error _ => .isFalse (fun hh => Except.noConfusion hh)
    | .error _, .ok _ => .isFalse (fun hh => Except.noConfusion hh)

/-- `shorthash` from `src/checks/git/repository.rs:38`:
`sha[0..7].to_string()`.  The byte slice succeeds exactly when the string has at
least 7 bytes (commit SHAs are ASCII hex, so bytes coincide with characters
here); on a shorter input the slice indexing panics, embedded as `none`. -/
def shorthash (sha : String) : Option String :=
  if 7 ≤ sha.length then some (String.mk (sha.data.take 7)) else none

/-- `GitError` from `src/checks/git.rs:52`. -/
inductive GitError
  | NotAGitRepository (dir msg : String)
  | NoHead
  | NotOnABranch
  | NoRemoteForBranch (branch : String)
  | DirtyWorkingTree
  | ConfigLoadingFailed
  | SshConfigFailed
  | FetchFailed (msg : String)
  | MergeConflict
  | TagMatchingFailed
  | FailedSettingHead (short : String)
deriving DecidableEq, Repr

/-- The result of `repo.merge_analysis` (git2's `MergeAnalysis` bit flags,
queried through its four predicates). -/
structure MergeAnalysis where
  is_fast_forward : Bool
  is_up_to_date : Bool
  is_unborn : Bool
  is_normal : Bool
deriving DecidableEq, Repr

/-- `GitRepository::check_if_updatable` from `src/checks/git/repository.rs:163`,
given the merge-analysis result (the call itself failing is `analysis = none`,
mapped to `MergeConflict` by the source's `map_err`). -/
def check_if_updatable (analysis : Option MergeAnalysis) : Except GitError Bool :=
  match analysis with
  | none => .error .MergeConflict
  | some a =>
    if a.is_fast_forward then .ok true
    else if a.is_up_to_date then .ok false
    else .error .MergeConflict

/-! ### Repository engine (`src/checks/git/repository.rs`, `src/checks/git.rs`) -/

/-- `git2::Status` entry, with the only property the code consults: whether the
entry is an ignored file. -/
structure StatusEntry where
  path : String
  ignored : Bool
deriving DecidableEq, Repr

/-- Lookup in an association list (libgit2 name→value maps: remotes, refs). -/
def lookupAssoc (l : List (String × String)) (k : String) : Option String :=
  (l.find? (fun p => p.1 = k)).map Prod.snd

/-- Overwrite an existing key's value (`Reference::set_target`). -/
def setAssoc (l : List (String × String)) (k v : String) : List (String × String) :=
  l.map (fun p => if p.1 = k then (k, v) else p)

/-- The state of an opened git repository, with one field per libgit2 query the
embedded functions perform.  Function-valued fields stand for query families
(tag listing by pattern, tag-reference peeling, revwalk). -/
structure GitRepository where
  /-- `repo.head().name()`; `none` when `repo.head()` fails or is unnamed. -/
  head_name : Option String
  /-- `head.shorthand()`: the short branch name, `none` for a non-branch ref. -/
  head_shorthand : Option String
  /-- `head.peel_to_commit().id().to_string()`; `none` when peeling fails. -/
  head_commit : Option String
  /-- `repo.branch_upstream_remote(ref_name)` as a string. -/
  branch_upstream_remote : Option String
  /-- `repo.find_remote(name).url()` for each configured remote. -/
  remote_urls : List (String × String)
  /-- `repo.statuses(...)` entries (the ignored flag per entry). -/
  statuses : List StatusEntry
  /-- reference name → target commit id (`find_reference`, `set_target`). -/
  refs : List (String × String)
  /-- the reference HEAD symbolically points at (`repo.set_head`). -/
  head_points_to : String
  /-- the commit checked out in the working tree (`checkout_head`). -/
  checked_out_commit : String
  /-- whether ref writes succeed (`false` = readonly repo: `FailedSettingHead`). -/
  refs_writable : Bool
  /-- whether `Config::open_default()` succeeds. -/
  config_loads : Bool
  /-- outcome of `remote.fetch` + `FETCH_HEAD` resolution: the annotated
  commit id, or the error message mapped to `FetchFailed`. -/
  fetch_result : Except String String
  /-- `repo.merge_analysis(&[fetch_commit])`; `none` = the call itself failed. -/
  merge_analysis : Option MergeAnalysis
  /-- `repo.tag_names(Some(pattern))`. -/
  tag_names_matching : String → List String
  /-- `find_reference("refs/tags/{t}").peel_to_commit().id()`. -/
  tag_ref_commit : String → Option String
  /-- `repo.revwalk()` pushed at a commit: commits in walk (reverse
  chronological) order. -/
  revwalk_from : String → List String

/-- `GitRepositoryInformation` from `src/checks/git/repository.rs:11`. -/
inductive GitRepositoryInformation
  | Branch (ref_type ref_name branch_name commit_sha commit_short_sha remote_name remote_url : String)
  | Reference (ref_type ref_name commit_sha commit_short_sha : String)
deriving DecidableEq, Repr

/-- `GitRepository::get_repository_information` from
`src/checks/git/repository.rs:61`.  The outer `Option` is `none` exactly when
the `shorthash` slice panics (commit SHA shorter than 7 bytes); as in the
source, `shorthash` is only evaluated when the `Ok` value is constructed, after
the remote lookups. -/
def get_repository_information (repo : GitRepository) :
    Option (Except GitError GitRepositoryInformation) :=
  match repo.head_name with
  | none => some (.error .NotOnABranch)
  | some ref_name =>
    match repo.head_commit with
    | none => some (.error .NotOnABranch)
    | some commit_sha =>
      match repo.head_shorthand with
      | some branch_name =>
        match repo.branch_upstream_remote with
        | none => some (.error (.NoRemoteForBranch branch_name))
        | some remote_name =>
          match lookupAssoc repo.remote_urls remote_name with
          | none => some (.error (.NoRemoteForBranch branch_name))
          | some remote_url =>
            match shorthash commit_sha with
            | none => none
            | some commit_short_sha =>
              some (.ok (.Branch "branch" ref_name branch_name commit_sha commit_short_sha
                remote_name remote_url))
      | none =>
        match shorthash commit_sha with
        | none => none
        | some commit_short_sha =>
          some (.ok (.Reference "reference" ref_name commit_sha commit_short_sha))

/-- `GitRepository::fetch` from `src/checks/git/repository.rs:109`: identity
(must be on a branch), remote lookup, credential setup (config load), then the
network fetch and `FETCH_HEAD` resolution, whose outcome is the
`fetch_result` field; errors there map to `FetchFailed`. -/
def GitRepository.fetch (repo : GitRepository) : Option (Except GitError String) :=
  match get_repository_information repo with
  | none => none
  | some (.error e) => some (.error e)
  | some (.ok (.Reference _ _ _ _)) => some (.error .NotOnABranch)
  | some (.ok (.Branch _ _ branch_name _ _ remote_name _)) =>
    match lookupAssoc repo.remote_urls remote_name with
    | none => some (.error (.NoRemoteForBranch branch_name))
    | some _ =>
      if repo.config_loads then
        match repo.fetch_result with
        | .error msg => some (.error (.FetchFailed msg))
        | .ok fetch_head_commit => some (.ok fetch_head_commit)
      else some (.error .ConfigLoadingFailed)

/-- The revwalk loop of `find_tags` (`src/checks/git/repository.rs:216`):
walk from the fetched commit, stop on reaching the current HEAD commit, and
collect the walked commits that carry a matching tag.  `pairs` is the
(tag name, tag commit) list resolved from the matching tag names; the source's
`tag_commits.contains(&oid)` membership test with the tag pushed per walked
commit. -/
def walkCollect (pairs : List (String × String)) (start : String) :
    List String → List (String × String)
  | [] => []
  | oid :: rest =>
    if oid = start then []
    else
      match pairs.find? (fun p => p.2 = oid) with
      | some p => p :: walkCollect pairs start rest
      | none => walkCollect pairs start rest

/-- `GitRepository::find_tags` from `src/checks/git/repository.rs:187`.
The source file's signature returns the commit ids only, while its caller
`check_inner` (`src/checks/git.rs:166`) consumes (tag name, commit) pairs; the
embedding returns the pairs, resolving each matching tag name through
`refs/tags/{name}` exactly as the source's `tag_commits` construction does
(failed resolutions are silently dropped by the source's `flat_map`).
Tags are pushed in walk (reverse chronological) order and reversed on return. -/
def GitRepository.find_tags (repo : GitRepository) (last_commit_id pattern : String) :
    Except GitError (List (String × String)) :=
  match repo.head_name with
  | none => .error .NotOnABranch
  | some _ =>
    match repo.head_commit with
    | none => .error .NotOnABranch
    | some start_commit_id =>
      let pairs := (repo.tag_names_matching pattern).filterMap
        (fun t => (repo.tag_ref_commit t).map (fun c => (t, c)))
      .ok ((walkCollect pairs start_commit_id (repo.revwalk_from last_commit_id)).reverse)

/-- `GitRepository::pull` from `src/checks/git/repository.rs:233`: identity,
then the dirty-working-tree guard on the non-ignored statuses, then
`set_target` + `set_head` + forced `checkout_head` (all three guarded by
`refs_writable`; on failure the state is unchanged and the error is
`FailedSettingHead`).  Returns the new repository state with the result. -/
def GitRepository.pull (repo : GitRepository) (commit_id : String) :
    Option (GitRepository × Except GitError Bool) :=
  match get_repository_information repo with
  | none => none
  | some (.error e) => some (repo, .error e)
  | some (.ok (.Reference _ _ _ _)) => some (repo, .error .NotOnABranch)
  | some (.ok (.Branch _ ref_name _ _ _ _ _)) =>
    if repo.statuses.filter (fun s => !s.ignored) ≠ [] then
      some (repo, .error .DirtyWorkingTree)
    else
      match shorthash commit_id with
      | none => none
      | some fetch_short =>
        match lookupAssoc repo.refs ref_name with
        | none => some (repo, .error .NotOnABranch)
        | some _ =>
          if repo.refs_writable then
            some ({ repo with
              refs := setAssoc repo.refs ref_name commit_id,
              head_points_to := ref_name,
              checked_out_commit := commit_id }, .ok true)
          else some (repo, .error (.FailedSettingHead fetch_short))

/-- `GitTriggerArgument` from `src/checks/git.rs:21`. -/
inductive GitTriggerArgument
  | Push
  | Tag (pattern : String)
deriving DecidableEq, Repr

/-- The context enrichment at the start of `check_inner`
(`src/checks/git.rs:145`). -/
def identityContext (ctx : Context) (branch_name commit_sha commit_short_sha
    remote_name remote_url : String) : Context :=
  (((((ctx.insert "CHECK_NAME" "GIT").insert
    "GIT_BRANCH_NAME" branch_name).insert
    "GIT_BEFORE_COMMIT_SHA" commit_sha).insert
    "GIT_BEFORE_COMMIT_SHORT_SHA" commit_short_sha).insert
    "GIT_REMOTE_NAME" remote_name).insert
    "GIT_REMOTE_URL" remote_url

/-- The context enrichment of the successful tag branch
(`src/checks/git.rs:168`). -/
def tagContext (ctx : Context) (tag_name commit short : String) : Context :=
  ((((ctx.insert "GIT_REF_TYPE" "tag").insert
    "GIT_REF_NAME" ("refs/tags/" ++ tag_name)).insert
    "GIT_COMMIT_SHA" commit).insert
    "GIT_COMMIT_SHORT_SHA" short).insert
    "GIT_COMMIT_TAG_NAME" tag_name

/-- The context enrichment of the successful push branch
(`src/checks/git.rs:158`). -/
def pushContext (ctx : Context) (ref_name commit short : String) : Context :=
  (((ctx.insert "GIT_REF_TYPE" "branch").insert
    "GIT_REF_NAME" ref_name).insert
    "GIT_COMMIT_SHA" commit).insert
    "GIT_COMMIT_SHORT_SHA" short

/-- `GitCheck::check_inner` from `src/checks/git.rs:140`: identity → context,
fetch, updatability, then the update driven by the trigger policy.  The source
reads the branch-only identity fields directly, so the `Reference` identity case
resolves to `NotOnABranch` (as its `fetch` would).  `tags.pop()` takes the last
(newest) element of the chronologically ordered tag list. -/
def GitCheck.check_inner (repo : GitRepository) (trigger : GitTriggerArgument)
    (ctx : Context) : Option (GitRepository × Context × Except GitError Bool) :=
  match get_repository_information repo with
  | none => none
  | some (.error e) => some (repo, ctx, .error e)
  | some (.ok (.Reference _ _ _ _)) => some (repo, ctx, .error .NotOnABranch)
  | some (.ok (.Branch _ ref_name branch_name commit_sha commit_short_sha
      remote_name remote_url)) =>
    let ctx := identityContext ctx branch_name commit_sha commit_short_sha
      remote_name remote_url
    match repo.fetch with
    | none => none
    | some (.error e) => some (repo, ctx, .error e)
    | some (.ok fetch_commit) =>
      match check_if_updatable repo.merge_analysis with
      | .error e => some (repo, ctx, .error e)
      | .ok false => some (repo, ctx, .ok false)
      | .ok true =>
        match trigger with
        | .Push =>
          match repo.pull fetch_commit with
          | none => none
          | some (repo', .error e) => some (repo', ctx, .error e)
          | some (repo', .ok _) =>
            match shorthash fetch_commit with
            | none => none
            | some short =>
              some (repo', pushContext ctx ref_name fetch_commit short, .ok true)
        | .Tag pattern =>
          match repo.find_tags fetch_commit pattern with
          | .error e => some (repo, ctx, .error e)
          | .ok tags =>
            match tags.getLast? with
            | none => some (repo, ctx, .ok false)
            | some (tag_name, commit) =>
              match repo.pull commit with
              | none => none
              | some (repo', .error e) => some (repo', ctx, .error e)
              | some (repo', .ok _) =>
                match shorthash commit with
                | none => none
                | some short =>
                  some (repo', tagContext ctx tag_name commit short, .ok true)

/-! ### Orchestrator receive loop (`src/start.rs:60`) -/

/-- Outcome of `check.check(&mut context)` for one event. -/
inductive CheckOutcome
  | ok (updated : Bool)
  | err
deriving DecidableEq, Repr

/-- Outcome of one `action.run(&context)` call. -/
inductive RunOutcome
  | ok
  | err
deriving DecidableEq, Repr

/-- The reaction batch of `start` (`src/start.rs:71`):
`for action in actions { let _ = action.run(&context); }` — every action is
invoked in declared order and its result is discarded.  Returns the indices of
the actions whose `run` is invoked, in invocation order. -/
def runActions : List RunOutcome → List Nat
  | [] => []
  | _ :: rest => 0 :: (runActions rest).map (· + 1)

/-- The reaction batch as the spec's words describe it (§4.8: "on a reactor
error, log and break the current reaction batch").  Stated from the spec for
comparison with `runActions`, which is taken from the source. -/
def runActionsSpec : List RunOutcome → List Nat
  | [] => []
  | .ok :: rest => 0 :: (runActionsSpec rest).map (· + 1)
  | .err :: _ => [0]

/-- The receive loop of `start` (`src/start.rs:60`):
`while let Ok(Some(mut context)) = rx.recv() { match check.check(&mut context) … }`.
Input: the queued channel values (`none` is the shutdown token), with each
event abstracted to its check outcome.  Output: for each processed event, the
indices of the actions invoked for it. -/
def receiveLoop (actions : List RunOutcome) : List (Option CheckOutcome) → List (List Nat)
  | [] => []
  | none :: _ => []
  | some c :: rest =>
    (match c with
     | .ok true => runActions actions
     | .ok false => []
     | .err => []) :: receiveLoop actions rest

/-! ### Credential handler (`src/checks/git/credentials.rs`) -/

/-- `CredentialAuth` from `src/checks/git/credentials.rs:11`. -/
inductive CredentialAuth
  | Ssh (path : String)
  | Https (username password : String)
deriving DecidableEq, Repr

/-- The `allowed` credential classes (`git2::CredentialType` flags queried by
the handler). -/
structure CredentialType where
  username : Bool
  ssh_key : Bool
  user_pass_plaintext : Bool
  default_cred : Bool
deriving DecidableEq, Repr

/-- The credential candidates the handler can yield (`git2::Cred` values,
distinguished by which constructor produced them). -/
inductive Cred
  | username (u : String)
  | sshKeyFromAgent (u : String)
  | sshKey (u path : String)
  | userpassPlaintext (u p : String)
  | fromHelper (u p : String)
  | defaultCred
deriving DecidableEq, Repr

/-- `CredentialHandler` state from `src/checks/git/credentials.rs:16`.
`cfg_helper` stands for the `git2::Config`-backed platform credential helper:
the pair it would answer with, or `none` when it fails. -/
structure CredentialHandler where
  username_attempts_count : Nat
  username_candidates : List String
  ssh_attempts_count : Nat
  ssh_key_candidates : List String
  https_credentials : Option (String × String)
  cred_helper_bad : Option Bool
  cfg_helper : Option (String × String)
deriving DecidableEq, Repr

/-- The default private-key names probed in the user's `.ssh` directory
(`src/checks/git/credentials.rs:50`). -/
def defaultKeyNames : List String :=
  ["id_dsa", "id_ecdsa", "id_ecdsa_sk", "id_ed25519", "id_ed25519_sk", "id_rsa"]

/-- `CredentialHandler::new` from `src/checks/git/credentials.rs:31`.
`key_exists` models the filesystem probe filtering the candidate keys. -/
def CredentialHandler.new (cfg_helper : Option (String × String))
    (key_exists : String → Bool) (auth : Option CredentialAuth) : CredentialHandler :=
  match auth with
  | some (.Https u p) =>
    { username_attempts_count := 0, username_candidates := ["git"],
      ssh_attempts_count := 0, ssh_key_candidates := [],
      https_credentials := some (u, p), cred_helper_bad := none, cfg_helper }
  | some (.Ssh path) =>
    { username_attempts_count := 0, username_candidates := ["git"],
      ssh_attempts_count := 0, ssh_key_candidates := [path].filter key_exists,
      https_credentials := none, cred_helper_bad := none, cfg_helper }
  | none =>
    { username_attempts_count := 0, username_candidates := ["git"],
      ssh_attempts_count := 0,
      ssh_key_candidates := (defaultKeyNames.map (".ssh/" ++ ·)).filter key_exists,
      https_credentials := none, cred_helper_bad := none, cfg_helper }

/-- `CredentialHandler::try_next_credential` from
`src/checks/git/credentials.rs:104`: one callback invocation, returning the
updated handler state together with the candidate or the terminal error. -/
def CredentialHandler.try_next_credential (h : CredentialHandler) (_url : String)
    (username : Option String) (allowed : CredentialType) :
    CredentialHandler × Except String Cred :=
  if allowed.username then
    let idx := h.username_attempts_count
    let h' := { h with username_attempts_count := idx + 1 }
    match h.username_candidates.get? idx with
    | some s => (h', .ok (.username s))
    | none => (h', .error "no more username to try")
  else if allowed.ssh_key then
    let h' := { h with ssh_attempts_count := h.ssh_attempts_count + 1 }
    let u := username.getD "git"
    if h'.ssh_attempts_count = 1 then (h', .ok (.sshKeyFromAgent u))
    else
      let candidate_idx := h'.ssh_attempts_count - 2
      if candidate_idx < h.ssh_key_candidates.length then
        match h.ssh_key_candidates.get? candidate_idx with
        | some k => (h', .ok (.sshKey u k))
        | none => (h', .error "failed ssh authentication for repository")
      else (h', .error "no ssh-key found that can authenticate to your repository")
  else if allowed.user_pass_plaintext = true ∧ h.cred_helper_bad = none then
    match h.https_credentials with
    | some (u, p) => (h, .ok (.userpassPlaintext u p))
    | none =>
      let r := h.cfg_helper
      let h' := { h with cred_helper_bad := some r.isNone }
      match r with
      | some (u, p) => (h', .ok (.fromHelper u p))
      | none => (h', .error "credential helper failed")
  else if allowed.default_cred then (h, .ok .defaultCred)
  else (h, .error "no valid authentication available")

/-- A handler constructed with explicit HTTPS credentials, and the `allowed`
mask libgit2 presents for plaintext HTTP authentication. -/
def httpsHandler : CredentialHandler :=
  CredentialHandler.new none (fun _ => false) (some (.Https "user" "pass"))

/-- `allowed` containing only `USER_PASS_PLAINTEXT`. -/
def userPassAllowed : CredentialType :=
  { username := false, ssh_key := false, user_pass_plaintext := true,
    default_cred := false }

/-! ### Process reactor (`src/actions/process.rs`) -/

/-- `ProcessError` from `src/actions/process.rs:22`. -/
inductive ProcessError
  | CommandParseFailure (cmd : String)
  | SignalParseFailure (sig : String)
  | StartFailure (msg : String)
  | StopFailure (msg : String)
  | KillFailed
  | MutexPoisoned
deriving DecidableEq, Repr

/-- How a supervised child's run ends, as observed by the drain thread when the
output pipe closes (`src/actions/process.rs:178`). -/
inductive ChildExit
  | signalled
  | crashed
deriving DecidableEq, Repr

/-- One turn of the supervision loop: how the current child exited, and whether
`start_child` would succeed if a restart is attempted. -/
structure SuperviseStep where
  exit : ChildExit
  restart_ok : Bool
deriving DecidableEq, Repr

/-- The shared child slot after the supervision thread finishes:
`occupied` = the slot still holds a handle (signal path, or the child never
exited); `emptied` = the terminal `take()` ran (the `Failed` state). -/
inductive SlotFate
  | occupied
  | emptied
deriving DecidableEq, Repr

/-- The supervision loop body of `Process::start`
(`src/actions/process.rs:165`): `tries` starts at `max_retries + 1`; a
signalled exit returns immediately; otherwise `tries` is decremented, the loop
breaks at zero, else it sleeps and restarts the child (a failed restart also
breaks).  Every break path empties the slot.  Returns the slot fate and the
number of restarts performed. -/
def superviseLoop : Nat → List SuperviseStep → SlotFate × Nat
  | _, [] => (.occupied, 0)
  | tries, step :: rest =>
    match step.exit with
    | .signalled => (.occupied, 0)
    | .crashed =>
      let tries' := tries - 1
      if tries' = 0 then (.emptied, 0)
      else if step.restart_ok then
        let r := superviseLoop tries' rest
        (r.1, r.2 + 1)
      else (.emptied, 0)

/-- The supervision thread spawned by `Process::start`
(`src/actions/process.rs:166`): `let mut tries = max_retries + 1`. -/
def Process.supervise (retries : Nat) (steps : List SuperviseStep) : SlotFate × Nat :=
  superviseLoop (retries + 1) steps

/-- The managed child as `Process::stop` observes it: its pids, how many
seconds after the stop signal `try_wait` would report an exit (`none` = the
child ignores the signal), and whether the `kill` syscall / force-kill
succeed. -/
structure ChildProc where
  pids : List Nat
  exits_after : Option Nat
  signal_ok : Bool
  kill_ok : Bool
deriving DecidableEq, Repr

/-- The child's state when `stop` returns. -/
inductive ChildStatus
  | running
  | exited
  | killed
deriving DecidableEq, Repr

/-- `child.try_wait()` at a given elapsed time (seconds after the signal). -/
def tryWaitDone (child : ChildProc) (elapsed : Nat) : Bool :=
  match child.exits_after with
  | some e => decide (e ≤ elapsed)
  | none => false

/-- The graceful-wait loop of `Process::stop` (`src/actions/process.rs:277`):
poll `try_wait` once per second while the elapsed time is below the timeout. -/
def stopPoll (child : ChildProc) : Nat → Nat → Bool
  | _, 0 => false
  | elapsed, fuel + 1 =>
    if tryWaitDone child elapsed then true else stopPoll child (elapsed + 1) fuel

/-- `Process::stop` (Unix) from `src/actions/process.rs:246`: empty slot is a
no-op; otherwise send `stop_signal` (`signal_ok`), poll for exit at 1-second
granularity up to `stop_timeout` seconds, and force-kill when the window
elapses.  Returns the child's final status (`none` = no child) with the
result.  The lock is modelled healthy (`MutexPoisoned` not reachable here). -/
def Process.stop (slot : Option ChildProc) (stop_timeout : Nat) :
    Option ChildStatus × Except ProcessError Unit :=
  match slot with
  | none => (none, .ok ())
  | some child =>
    match child.pids.head? with
    | none => (some .running, .error (.StopFailure "pid not found"))
    | some _pid =>
      if child.signal_ok then
        if stopPoll child 0 stop_timeout then (some .exited, .ok ())
        else if child.kill_ok then (some .killed, .ok ())
        else (some .running, .error (.StopFailure "kill failed"))
      else (some .running, .error .KillFailed)

/-! ### HTTP trigger (`src/triggers/http.rs`) -/

/-- An incoming HTTP request, as the handler reads it. -/
structure HttpRequest where
  method : String
  url : String
deriving DecidableEq, Repr

/-- The reply sent by `request.respond(Response::from_string("OK"))`
(tiny_http defaults: status 200). -/
structure HttpResponse where
  status : Nat
  body : String
deriving DecidableEq, Repr

/-- `HttpError` from `src/triggers/http.rs:21`. -/
inductive HttpError
  | CantStartServer (addr : String)
  | ReceiverHangup
  | FailedResponse
deriving DecidableEq, Repr

/-- One iteration of the `incoming_requests` loop of
`HttpTrigger::listen_inner` (`src/triggers/http.rs:55`): build the context,
send the emission (`send_ok` = the receiver is alive), then respond `200 OK`.
A failed send returns `ReceiverHangup` before any response is sent. -/
def handleRequest (req : HttpRequest) (send_ok : Bool) :
    Except HttpError (Context × HttpResponse) :=
  let context : Context :=
    [("TRIGGER_NAME", "HTTP"), ("HTTP_METHOD", req.method), ("HTTP_URL", req.url)]
  if send_ok then .ok (context, { status := 200, body := "OK" })
  else .error .ReceiverHangup

/-! ### Concrete repository states used to evaluate the theorems -/

/-- A 40-hex-character commit id (the commit the local branch is on). -/
def shaA : String := "aaaaaaaaaaaaaaaaaaaaaaaaaaaaaaaaaaaaaaaa"

/-- A 40-hex-character commit id (a tagged upstream commit). -/
def shaB : String := "bbbbbbbbbbbbbbbbbbbbbbbbbbbbbbbbbbbbbbbb"

/-- A 40-hex-character commit id (the fetched upstream tip). -/
def shaC : String := "cccccccccccccccccccccccccccccccccccccccc"

/-- A repository on branch `master` with an uncommitted (non-ignored)
modification in the working tree. -/
def dirtyRepo : GitRepository where
  head_name := some "refs/heads/master"
  head_shorthand := some "master"
  head_commit := some shaA
  branch_upstream_remote := some "origin"
  remote_urls := [("origin", "https://example.com/repo.git")]
  statuses := [{ path := "1", ignored := false }]
  refs := [("refs/heads/master", shaA)]
  head_points_to := "refs/heads/master"
  checked_out_commit := shaA
  refs_writable := true
  config_loads := true
  fetch_result := .ok shaB
  merge_analysis := some ⟨true, false, false, false⟩
  tag_names_matching := fun _ => []
  tag_ref_commit := fun _ => none
  revwalk_from := fun _ => []

/-- A clean repository on `master` at `shaA`; upstream has advanced to `shaC`
with the intermediate commit `shaB` tagged `v1`; merge analysis reports
fast-forward. -/
def tagRepo : GitRepository where
  head_name := some "refs/heads/master"
  head_shorthand := some "master"
  head_commit := some shaA
  branch_upstream_remote := some "origin"
  remote_urls := [("origin", "https://example.com/repo.git")]
  statuses := []
  refs := [("refs/heads/master", shaA)]
  head_points_to := "refs/heads/master"
  checked_out_commit := shaA
  refs_writable := true
  config_loads := true
  fetch_result := .ok shaC
  merge_analysis := some ⟨true, false, false, false⟩
  tag_names_matching := fun p => if p = "v*" then ["v1"] else []
  tag_ref_commit := fun t => if t = "v1" then some shaB else none
  revwalk_from := fun _ => [shaC, shaB, shaA]

/-- `tagRepo` after the tag-mode update: the branch ref, HEAD and the working
tree moved to the tagged commit `shaB` (not the fetched tip `shaC`). -/
def tagRepoAfter : GitRepository :=
  { tagRepo with
    refs := setAssoc tagRepo.refs "refs/heads/master" shaB,
    head_points_to := "refs/heads/master",
    checked_out_commit := shaB }

/-- A managed child with pid 42 that exits two seconds after receiving the
stop signal. -/
def wChild : ChildProc where
  pids := [42]
  exits_after := some 2
  signal_ok := true
  kill_ok := true

/-! ## Helper lemmas -/

theorem Context.get_insert_same (ctx : Context) (k v : String) :
    (ctx.insert k v).get k = some v := by
  simp [Context.insert, Context.get, List.find?]

theorem Context.get_insert_ne (ctx : Context) (k k' v : String) (h : k ≠ k') :
    (ctx.insert k' v).get k = ctx.get k := by
  simp only [Context.insert, Context.get, List.find?]
  rw [decide_eq_false (fun hh : k' = k => h hh.symm)]
  induction ctx with
  | nil => rfl
  | cons p rest ih =>
    by_cases hp : p.1 = k'
    · have h1 : decide (p.1 ≠ k') = false := by simp [hp]
      have h2 : decide (p.1 = k) = false := decide_eq_false (fun hh => h (hh ▸ hp))
      simp only [List.filter, h1, List.find?, h2]
      exact ih
    · have h1 : decide (p.1 ≠ k') = true := by simp [hp]
      simp only [List.filter, h1]
      by_cases hk : p.1 = k
      · simp [List.find?, hk]
      · simp only [List.find?, decide_eq_false hk]
        exact ih

theorem runActions_eq_range (actions : List RunOutcome) :
    runActions actions = List.range actions.length := by
  induction actions with
  | nil => rfl
  | cons a rest ih =>
    simp only [runActions, ih, List.length_cons, List.range_succ_eq_map]

theorem lookupAssoc_setAssoc_self (l : List (String × String)) (k v v0 : String)
    (h : lookupAssoc l k = some v0) : lookupAssoc (setAssoc l k v) k = some v := by
  induction l with
  | nil => simp [lookupAssoc] at h
  | cons p rest ih =>
    by_cases hp : p.1 = k
    · simp [lookupAssoc, setAssoc, List.find?, hp]
    · simp only [lookupAssoc, setAssoc, List.map, if_neg hp, List.find?,
        decide_eq_false hp] at h ⊢
      exact ih h

theorem tagContext_get_ref_type (ctx : Context) (n c s : String) :
    (tagContext ctx n c s).get "GIT_REF_TYPE" = some "tag" := by
  unfold tagContext
  rw [Context.get_insert_ne _ _ _ _ (by decide), Context.get_insert_ne _ _ _ _ (by decide),
    Context.get_insert_ne _ _ _ _ (by decide), Context.get_insert_ne _ _ _ _ (by decide),
    Context.get_insert_same]

theorem tagContext_get_ref_name (ctx : Context) (n c s : String) :
    (tagContext ctx n c s).get "GIT_REF_NAME" = some ("refs/tags/" ++ n) := by
  unfold tagContext
  rw [Context.get_insert_ne _ _ _ _ (by decide), Context.get_insert_ne _ _ _ _ (by decide),
    Context.get_insert_ne _ _ _ _ (by decide), Context.get_insert_same]

theorem tagContext_get_commit_sha (ctx : Context) (n c s : String) :
    (tagContext ctx n c s).get "GIT_COMMIT_SHA" = some c := by
  unfold tagContext
  rw [Context.get_insert_ne _ _ _ _ (by decide), Context.get_insert_ne _ _ _ _ (by decide),
    Context.get_insert_same]

theorem tagContext_get_tag_name (ctx : Context) (n c s : String) :
    (tagContext ctx n c s).get "GIT_COMMIT_TAG_NAME" = some n := by
  unfold tagContext
  rw [Context.get_insert_same]

theorem pull_ok_inv (repo repo' : GitRepository)
    (commit rt rn bn cs css rmn rmu : String)
    (hinfo : get_repository_information repo = some (.ok (.Branch rt rn bn cs css rmn rmu)))
    (h : repo.pull commit = some (repo', .ok true)) :
    repo' = { repo with
      refs := setAssoc repo.refs rn commit,
      head_points_to := rn,
      checked_out_commit := commit }
    ∧ (∃ v, lookupAssoc repo.refs rn = some v)
    ∧ (∃ s, shorthash commit = some s) := by
  simp only [GitRepository.pull, hinfo] at h
  by_cases hd : repo.statuses.filter (fun s => !s.ignored) ≠ []
  · rw [if_pos hd] at h
    simp at h
  · rw [if_neg hd] at h
    cases hsh : shorthash commit with
    | none => simp only [hsh] at h; exact Option.noConfusion h
    | some s =>
      cases hlk : lookupAssoc repo.refs rn with
      | none => simp only [hsh, hlk] at h; simp at h
      | some v =>
        by_cases hw : repo.refs_writable
        · simp only [hsh, hlk, if_pos hw, Option.some.injEq, Prod.mk.injEq] at h
          exact ⟨h.1.symm, ⟨v, rfl⟩, ⟨s, rfl⟩⟩
        · simp only [hsh, hlk, if_neg hw] at h
          simp at h

/-! ## Claim theorems -/

/-- C1 (counterexample): the claim says that as soon as one reactor's `run`
returns an error, no subsequent reactor runs for that event.  In the source
(`src/start.rs:72`) the result of `action.run` is discarded (`let _ =`), so
with reactors `[err, ok]` and one `check=true` event the second reactor (index
1) still runs, whereas the spec's batch would stop after index 0. -/
theorem C1_counterexample :
    receiveLoop [.err, .ok] [some (.ok true), none] = [[0, 1]]
    ∧ runActionsSpec [.err, .ok] = [0]
    ∧ receiveLoop [.err, .ok] [some (.ok true), none]
        ≠ [runActionsSpec [.err, .ok]] := by
  decide

/-- C1 (amended): for every event whose check returns true, the orchestrator
invokes every configured reactor in declared order — a reactor error does not
stop the batch, because each `run` result is discarded — and the receive loop
then continues with the later events. -/
theorem C1_reactors_all_run_in_order (actions : List RunOutcome)
    (rest : List (Option CheckOutcome)) :
    receiveLoop actions (some (.ok true) :: rest)
      = runActions actions :: receiveLoop actions rest
    ∧ runActions actions = List.range actions.length :=
  ⟨rfl, runActions_eq_range actions⟩

/-- C2: under libgit2's invariant that a merge analysis never reports
fast-forward and up-to-date simultaneously, `check_if_updatable` returns `true`
exactly on fast-forward, `false` exactly on up-to-date, and the `MergeConflict`
error in every other case (unborn and normal merge included); it never returns
`true` for an up-to-date result. -/
theorem C2_check_if_updatable_characterisation (a : MergeAnalysis)
    (h : ¬(a.is_fast_forward = true ∧ a.is_up_to_date = true)) :
    (check_if_updatable (some a) = .ok true ↔ a.is_fast_forward = true)
    ∧ (check_if_updatable (some a) = .ok false ↔ a.is_up_to_date = true)
    ∧ (check_if_updatable (some a) = .error .MergeConflict
        ↔ (a.is_fast_forward = false ∧ a.is_up_to_date = false)) := by
  obtain ⟨ff, utd, ub, nm⟩ := a
  cases ff <;> cases utd <;> simp_all [check_if_updatable]

/-- C2 witness: an up-to-date analysis makes `check_if_updatable` return
`false`. -/
theorem C2_witness :
    check_if_updatable (some ⟨false, true, false, false⟩) = .ok false :=
  (C2_check_if_updatable_characterisation ⟨false, true, false, false⟩
    (by decide)).2.1.mpr rfl

/-- C5: for an event whose check returns false, and for an event whose check
returns an error, no reactor is invoked (the batch is empty), and in both
cases the receive loop continues with the later events instead of
terminating. -/
theorem C5_no_reactor_on_false_or_error (actions : List RunOutcome)
    (rest : List (Option CheckOutcome)) :
    receiveLoop actions (some (.ok false) :: rest) = [] :: receiveLoop actions rest
    ∧ receiveLoop actions (some .err :: rest) = [] :: receiveLoop actions rest :=
  ⟨rfl, rfl⟩

/-- C9: for every HTTP request, whatever its method and URL, the handler sends
an emission whose context carries `TRIGGER_NAME=HTTP`, `HTTP_METHOD` = the
request method and `HTTP_URL` = the request URL, and replies with status 200
and body "OK". -/
theorem C9_http_any_request_ok (req : HttpRequest) :
    ∃ ctx resp, handleRequest req true = .ok (ctx, resp)
    ∧ ctx.get "TRIGGER_NAME" = some "HTTP"
    ∧ ctx.get "HTTP_METHOD" = some req.method
    ∧ ctx.get "HTTP_URL" = some req.url
    ∧ resp.status = 200 ∧ resp.body = "OK" := by
  refine ⟨_, _, rfl, ?_, ?_, ?_, rfl, rfl⟩ <;> rfl

/-- C10: `shorthash` is only safe on inputs of at least 7 characters: there it
returns exactly the first 7 characters (a string of length 7), and on any
shorter input the byte-slice indexing panics (embedded as `none`). -/
theorem C10_shorthash_safety (sha : String) :
    (7 ≤ sha.length →
      shorthash sha = some (String.mk (sha.data.take 7))
      ∧ (String.mk (sha.data.take 7)).length = 7)
    ∧ (sha.length < 7 → shorthash sha = none) := by
  constructor
  · intro h
    refine ⟨by simp [shorthash, h], ?_⟩
    show (sha.data.take 7).length = 7
    rw [List.length_take]
    exact Nat.min_eq_left h
  · intro h
    simp [shorthash, Nat.not_le.mpr h]

/-- C10 witness: a 16-character SHA prefix is truncated to its first 7
characters; a 6-character input panics. -/
theorem C10_witness :
    (shorthash "0123456789abcdef" = some (String.mk ("0123456789abcdef".data.take 7))
      ∧ (String.mk ("0123456789abcdef".data.take 7)).length = 7)
    ∧ shorthash "012345" = none :=
  ⟨(C10_shorthash_safety "0123456789abcdef").1 (by decide),
    (C10_shorthash_safety "012345").2 (by decide)⟩

/-- C3: for every repository on a branch whose status list (ignored entries
excluded) is non-empty when `pull` is called, `pull` returns the
`DirtyWorkingTree` error and the repository state is returned unchanged: the
dirty-tree check precedes `set_target`, `set_head` and the checkout, so no ref
is modified. -/
theorem C3_pull_dirty_tree_atomic (repo : GitRepository)
    (commit_id rt rn bn cs css rmn rmu : String)
    (hinfo : get_repository_information repo = some (.ok (.Branch rt rn bn cs css rmn rmu)))
    (hdirty : repo.statuses.filter (fun s => !s.ignored) ≠ []) :
    repo.pull commit_id = some (repo, .error .DirtyWorkingTree) := by
  simp only [GitRepository.pull, hinfo]
  rw [if_pos hdirty]

/-- C3 witness: pulling into a repository with one uncommitted modification is
refused with `DirtyWorkingTree`, leaving every ref where it was. -/
theorem C3_witness :
    dirtyRepo.pull shaB = some (dirtyRepo, .error .DirtyWorkingTree) :=
  C3_pull_dirty_tree_atomic dirtyRepo shaB "branch" "refs/heads/master" "master"
    shaA (String.mk (shaA.data.take 7)) "origin" "https://example.com/repo.git"
    (by decide) (by decide)

/-- C6 (code bug): the claim — and the handler's own doc comment — say each
credential class is tried at most once per fetch, in particular explicit HTTPS
credentials are used once, so repeated callback invocations cannot yield the
same candidate forever.  In the source (`src/checks/git/credentials.rs:189`)
the explicit-HTTPS branch returns without recording the attempt
(`cred_helper_bad` stays `None`), so every invocation with
`USER_PASS_PLAINTEXT` allowed yields the same credentials again: the state is
returned unchanged, hence the callback loops forever when the server keeps
rejecting them. -/
theorem C6_https_credentials_reused_forever :
    httpsHandler.try_next_credential "https://example.com/repo.git" none userPassAllowed
      = (httpsHandler, .ok (.userpassPlaintext "user" "pass"))
    ∧ ((httpsHandler.try_next_credential "https://example.com/repo.git" none
          userPassAllowed).1.try_next_credential "https://example.com/repo.git" none
          userPassAllowed).2 = .ok (.userpassPlaintext "user" "pass") := by
  decide

theorem superviseLoop_restarts_le (steps : List SuperviseStep) :
    ∀ tries, (superviseLoop tries steps).2 ≤ tries - 1 := by
  induction steps with
  | nil => intro tries; exact Nat.zero_le _
  | cons step rest ih =>
    intro tries
    have h := ih (tries - 1)
    cases hex : step.exit with
    | signalled => simp [superviseLoop, hex]
    | crashed =>
      simp only [superviseLoop, hex]
      by_cases h0 : tries - 1 = 0
      · simp [h0]
      · simp only [if_neg h0]
        by_cases hr : step.restart_ok = true
        · simp only [if_pos hr]
          show (superviseLoop (tries - 1) rest).2 + 1 ≤ tries - 1
          omega
        · simp [hr]

theorem superviseLoop_exhaust (steps : List SuperviseStep) :
    ∀ tries, 1 ≤ tries → tries ≤ steps.length →
    (∀ s ∈ steps, s.exit = .crashed ∧ s.restart_ok = true) →
    superviseLoop tries steps = (.emptied, tries - 1) := by
  induction steps with
  | nil =>
    intro tries h1 h2 _
    simp only [List.length_nil] at h2
    omega
  | cons step rest ih =>
    intro tries h1 h2 hall
    obtain ⟨hex, hr⟩ := hall step (List.mem_cons_self _ _)
    simp only [superviseLoop, hex]
    by_cases h0 : tries - 1 = 0
    · rw [if_pos h0, h0]
    · rw [if_neg h0, if_pos hr]
      simp only [List.length_cons] at h2
      have hrec := ih (tries - 1) (by omega) (by omega)
        (fun s hs => hall s (List.mem_cons_of_mem _ hs))
      show ((superviseLoop (tries - 1) rest).1, (superviseLoop (tries - 1) rest).2 + 1)
        = (.emptied, tries - 1)
      rw [hrec]
      simp only [Prod.mk.injEq, true_and]
      omega

/-- C7: the supervision loop started with `retries = r` restarts a crashed
child at most `r` times; when every child crashes and the retries run out, the
loop ends in the terminal state that empties the shared slot after exactly `r`
restarts; and a `stop` on the emptied slot finds no child and is a successful
no-op. -/
theorem C7_retries_bounded_terminal (r : Nat) (steps : List SuperviseStep) :
    (Process.supervise r steps).2 ≤ r
    ∧ ((∀ s ∈ steps, s.exit = .crashed ∧ s.restart_ok = true) →
        r + 1 ≤ steps.length → Process.supervise r steps = (.emptied, r))
    ∧ (∀ t, Process.stop none t = (none, .ok ())) := by
  refine ⟨?_, ?_, fun t => rfl⟩
  · have h := superviseLoop_restarts_le steps (r + 1)
    simpa [Process.supervise] using h
  · intro hall hlen
    have h := superviseLoop_exhaust steps (r + 1) (by omega) hlen hall
    simpa [Process.supervise] using h

/-- C7 witness: with `retries = 1` and two crashing children, the loop
performs exactly one restart and empties the slot; `stop` then finds no
child. -/
theorem C7_witness :
    Process.supervise 1 [⟨.crashed, true⟩, ⟨.crashed, true⟩] = (.emptied, 1)
    ∧ (Process.supervise 1 [⟨.crashed, true⟩, ⟨.crashed, true⟩]).2 ≤ 1
    ∧ Process.stop none 10 = (none, .ok ()) :=
  ⟨(C7_retries_bounded_terminal 1 [⟨.crashed, true⟩, ⟨.crashed, true⟩]).2.1
      (by decide) (by decide),
    (C7_retries_bounded_terminal 1 [⟨.crashed, true⟩, ⟨.crashed, true⟩]).1,
    (C7_retries_bounded_terminal 1 [⟨.crashed, true⟩, ⟨.crashed, true⟩]).2.2 10⟩

/-- C8: whenever `stop` returns successfully the managed child is no longer
running — it either exited within the graceful window (the 1-second polls up
to `stop_timeout` saw the exit) or was force-killed — and on an empty slot
`stop` is a no-op that succeeds. -/
theorem C8_stop_child_not_running (slot : Option ChildProc) (t : Nat)
    (st : Option ChildStatus) (h : Process.stop slot t = (st, .ok ())) :
    st ≠ some .running
    ∧ (slot = none → st = none)
    ∧ (∀ child, slot = some child →
        (stopPoll child 0 t = true → st = some .exited)
        ∧ (stopPoll child 0 t = false → st = some .killed)) := by
  cases slot with
  | none =>
    injection h with h1 h2
    refine ⟨?_, fun _ => h1.symm, fun child hc => Option.noConfusion hc⟩
    rw [← h1]
    simp
  | some child =>
    simp only [Process.stop] at h
    cases hp : child.pids.head? with
    | none => simp only [hp] at h; exact absurd h.symm (by simp)
    | some pid =>
      simp only [hp] at h
      by_cases hs : child.signal_ok = true
      · rw [if_pos hs] at h
        by_cases hpoll : stopPoll child 0 t = true
        · rw [if_pos hpoll] at h
          injection h with h1 h2
          refine ⟨by rw [← h1]; simp, fun hc => Option.noConfusion hc, ?_⟩
          intro c hc
          injection hc with hcc
          subst hcc
          exact ⟨fun _ => h1.symm, fun hcontra => absurd hpoll (by simp [hcontra])⟩
        · rw [if_neg hpoll] at h
          by_cases hk : child.kill_ok = true
          · rw [if_pos hk] at h
            injection h with h1 h2
            refine ⟨by rw [← h1]; simp, fun hc => Option.noConfusion hc, ?_⟩
            intro c hc
            injection hc with hcc
            subst hcc
            refine ⟨fun hcontra => absurd hcontra hpoll, fun _ => h1.symm⟩
          · rw [if_neg hk] at h
            injection h with h1 h2
            exact absurd h2.symm (by simp)
      · rw [if_neg hs] at h
        injection h with h1 h2
        exact absurd h2.symm (by simp)

/-- C4: in tag mode, when the repository is on a branch, the fetch succeeded
and the merge analysis allows a fast-forward: if the matching-tag list for the
fetched commit is empty, the check returns `false` and the repository state —
branch ref, HEAD and checkout — is returned unchanged; otherwise HEAD, the
branch ref and the checkout move to the commit of the newest matching tag (the
last element of the chronologically ordered tag list, not necessarily the
fetched tip), and the context gains `GIT_REF_TYPE="tag"`, the tag's name and
its commit. -/
theorem C4_tag_mode (repo : GitRepository) (ctx : Context) (pattern : String)
    (rt rn bn cs css rmn rmu fc : String)
    (hinfo : get_repository_information repo = some (.ok (.Branch rt rn bn cs css rmn rmu)))
    (hfetch : repo.fetch = some (.ok fc))
    (hupd : check_if_updatable repo.merge_analysis = .ok true) :
    (repo.find_tags fc pattern = .ok [] →
      GitCheck.check_inner repo (.Tag pattern) ctx
        = some (repo, identityContext ctx bn cs css rmn rmu, .ok false))
    ∧ (∀ tags tag_name commit repo',
        repo.find_tags fc pattern = .ok tags →
        tags.getLast? = some (tag_name, commit) →
        repo.pull commit = some (repo', .ok true) →
        ∃ short ctx',
          shorthash commit = some short
          ∧ GitCheck.check_inner repo (.Tag pattern) ctx = some (repo', ctx', .ok true)
          ∧ repo'.checked_out_commit = commit
          ∧ lookupAssoc repo'.refs rn = some commit
          ∧ repo'.head_points_to = rn
          ∧ ctx'.get "GIT_REF_TYPE" = some "tag"
          ∧ ctx'.get "GIT_REF_NAME" = some ("refs/tags/" ++ tag_name)
          ∧ ctx'.get "GIT_COMMIT_SHA" = some commit
          ∧ ctx'.get "GIT_COMMIT_TAG_NAME" = some tag_name) := by
  constructor
  · intro hfind
    simp only [GitCheck.check_inner, hinfo, hfetch, hupd, hfind, List.getLast?]
  · intro tags tag_name commit repo' hfind hlast hpull
    obtain ⟨hrepo', ⟨v, hv⟩, s, hs⟩ :=
      pull_ok_inv repo repo' commit rt rn bn cs css rmn rmu hinfo hpull
    refine ⟨s, tagContext (identityContext ctx bn cs css rmn rmu) tag_name commit s,
      hs, ?_, ?_, ?_, ?_, tagContext_get_ref_type _ _ _ _, tagContext_get_ref_name _ _ _ _,
      tagContext_get_commit_sha _ _ _ _, tagContext_get_tag_name _ _ _ _⟩
    · simp only [GitCheck.check_inner, hinfo, hfetch, hupd, hfind, hlast, hpull, hs]
    · rw [hrepo']
    · rw [hrepo']
      exact lookupAssoc_setAssoc_self repo.refs rn commit v hv
    · rw [hrepo']

/-- C4 witness: on a concrete repository with upstream commits `shaB` (tagged
`v1`) and `shaC` beyond the local HEAD `shaA`: a non-matching glob yields
`false` with the state unchanged; the glob `v*` moves the branch to `shaB`
(not the fetched tip `shaC`) and fills the tag context keys. -/
theorem C4_witness :
    (GitCheck.check_inner tagRepo (.Tag "x*") []
      = some (tagRepo, identityContext [] "master" shaA (String.mk (shaA.data.take 7))
          "origin" "https://example.com/repo.git", .ok false))
    ∧ (∃ short ctx',
        shorthash shaB = some short
        ∧ GitCheck.check_inner tagRepo (.Tag "v*") [] = some (tagRepoAfter, ctx', .ok true)
        ∧ tagRepoAfter.checked_out_commit = shaB
        ∧ lookupAssoc tagRepoAfter.refs "refs/heads/master" = some shaB
        ∧ tagRepoAfter.head_points_to = "refs/heads/master"
        ∧ ctx'.get "GIT_REF_TYPE" = some "tag"
        ∧ ctx'.get "GIT_REF_NAME" = some ("refs/tags/" ++ "v1")
        ∧ ctx'.get "GIT_COMMIT_SHA" = some shaB
        ∧ ctx'.get "GIT_COMMIT_TAG_NAME" = some "v1") :=
  ⟨(C4_tag_mode tagRepo [] "x*" "branch" "refs/heads/master" "master" shaA
      (String.mk (shaA.data.take 7)) "origin" "https://example.com/repo.git" shaC
      (by decide) (by decide) (by decide)).1 (by decide),
   (C4_tag_mode tagRepo [] "v*" "branch" "refs/heads/master" "master" shaA
      (String.mk (shaA.data.take 7)) "origin" "https://example.com/repo.git" shaC
      (by decide) (by decide) (by decide)).2
      [("v1", shaB)] "v1" shaB tagRepoAfter (by decide) rfl rfl⟩

/-- C8 witness: a child that exits two seconds after the signal is seen by the
polls within a 10-second window, so `stop` reports a graceful (not running)
child. -/
theorem C8_witness :
    (some ChildStatus.exited : Option ChildStatus) ≠ some .running
    ∧ ((some wChild : Option ChildProc) = none
        → (some ChildStatus.exited : Option ChildStatus) = none)
    ∧ (∀ child, (some wChild : Option ChildProc) = some child →
        (stopPoll child 0 10 = true
          → (some ChildStatus.exited : Option ChildStatus) = some .exited)
        ∧ (stopPoll child 0 10 = false
          → (some ChildStatus.exited : Option ChildStatus) = some .killed)) :=
  C8_stop_child_not_running (some wChild) 10 (some .exited) (by decide)

end Gw
